import Mathlib

/-!
Shallow embedding of the shclisem package, a weighted-semaphore admission
layer in front of an HTTP client.  The source file concatenates three
revisions of the package; the claims cite the second revision (the one
with four named counter structs) and the third revision (the one with
plain int counters guarded by rwmutexes).  The second revision is
embedded as `RequestHandler`, the third as `RequestHandlerRev3`.

Machine integers are modelled as `Int`; no arithmetic performed by the
embedded code can overflow a 64 bit int, because counter increments are
guarded by a comparison with the counter maximum (at most MaxInt64) and
weights flow into comparisons only.  A single call is modelled as a pure
state transformer of the handler.  The semaphore from golang.org/x/sync
is external to the repository; it is modelled, following the gate
contract of the spec (sections 4.1 and 5) restricted to the frame of a
single acquiring task with no concurrent releases: acquisition succeeds
immediately iff the free capacity covers the requested weight, and
otherwise the call stays blocked until the supplied context fires, in
which case the context error is returned and nothing is granted.
-/

/-- Largest 64 bit signed integer, math.MaxInt64 in the source. -/
def maxInt64 : Int := 9223372036854775807

/-- Largest 32 bit signed integer, math.MaxInt32 in the source. -/
def maxInt32 : Int := 2147483647

/-- One second in nanoseconds (Go time.Duration is an int64 nanosecond count). -/
def nsSecond : Int := 1000000000

/-- One minute in nanoseconds. -/
def nsMinute : Int := 60000000000

/-- One hour in nanoseconds. -/
def nsHour : Int := 3600000000000

/-- A Go error value, tagged with its provenance: a fresh errors.New
message, the error of a context (context.DeadlineExceeded or
context.Canceled), or an error returned by the HTTP client. -/
inductive GoErr where
  | errNew (s : String)
  | ctxDone (s : String)
  | clientErr (s : String)
deriving DecidableEq

/-- The message carried by a Go error, its Error() string. -/
def GoErr.msg : GoErr → String
  | .errNew s => s
  | .ctxDone s => s
  | .clientErr s => s

/-- The counter struct of the second revision: a named count with a
maximum and an overflow policy.  The rwmutex field of the source is
dropped: a single call is modelled, so mutation is sequential. -/
structure Counter where
  name : String
  count : Int
  max : Int
  rollover : Bool
deriving DecidableEq

/-- newCounter from the source: a zero max argument selects
math.MaxInt64, the count starts at zero. -/
def newCounter (name : String) (max : Int) (rollover : Bool) : Counter :=
  { name := name
    count := 0
    max := if max = 0 then maxInt64 else max
    rollover := rollover }

/-- counter.Add from the source: at the maximum, a rollover counter
resets the count to zero and still falls through to the increment, a
saturating counter returns an error and leaves the count alone;
otherwise the count is incremented. -/
def Counter.add (c : Counter) : Counter × Option String :=
  if c.count = c.max then
    if c.rollover then
      let c1 : Counter := { c with count := 0 }
      ({ c1 with count := c1.count + 1 }, none)
    else
      (c, some (c.name ++ " count too high.  Slow your roll!"))
  else
    ({ c with count := c.count + 1 }, none)

/-- counter.Remove from the source: at zero, a rollover counter silently
no-ops, a saturating counter returns an error; otherwise the count is
decremented. -/
def Counter.remove (c : Counter) : Counter × Option String :=
  if c.count = 0 then
    if c.rollover then
      (c, none)
    else
      (c, some "Too much removal")
  else
    ({ c with count := c.count - 1 }, none)

/-- The weighted semaphore state: total capacity and currently held
weight. -/
structure Semaphore where
  size : Int
  cur : Int
deriving DecidableEq

/-- Behaviour of a Go context during a blocking wait: either its Done
channel never fires (context.Background), or it eventually fires and
Err() returns the given message (deadline exceeded or canceled). -/
inductive CtxBehavior where
  | neverFires
  | fires (msg : String)
deriving DecidableEq

/-- Outcome of a semaphore acquisition in the single-caller frame. -/
inductive AcqResult where
  | ok
  | ctxDone (msg : String)
  | blockForever
deriving DecidableEq

/-- Modelled from the spec: Weighted.Acquire of golang.org/x/sync (the
bounded weighted gate of spec section 4.1), which is not part of this
repository, restricted to a single acquiring task with no concurrent
releases.  If the free capacity covers n the weight is granted at once;
otherwise no capacity will ever free up in this frame, so the call
blocks until the context fires and returns the context error granting
nothing, or blocks forever if the context never fires. -/
def Semaphore.acquire (s : Semaphore) (ctx : CtxBehavior) (n : Int) :
    AcqResult × Semaphore :=
  if n ≤ s.size - s.cur then
    (.ok, { s with cur := s.cur + n })
  else
    match ctx with
    | .fires m => (.ctxDone m, s)
    | .neverFires => (.blockForever, s)

/-- Weighted.Release: gives the weight back. -/
def Semaphore.release (s : Semaphore) (n : Int) : Semaphore :=
  { s with cur := s.cur - n }

/-- An http.Request stands for an opaque value; only nil versus non-nil
matters to the embedded code, so requests are wrapped in Option at the
call sites. -/
abbrev HttpRequest := Nat

/-- An http.Response, opaque to the embedded code. -/
abbrev HttpResponse := Nat

/-- The execution capability client.Do: a pure map from a request to a
response paired with an optional error message. -/
abbrev HttpClient := HttpRequest → HttpResponse × Option String

/-- Stand-in for http.DefaultClient: some fixed non-nil client. -/
def defaultClient : HttpClient := fun _ => (0, none)

/-- The RequestHandler of the second revision: client, semaphore,
timeout and the four counters (current in-flight, waiting, total
completed, errors).  Pointer fields are Options; nil is none. -/
structure RequestHandler where
  client : Option HttpClient
  sem : Option Semaphore
  timeout : Int
  current : Option Counter
  waiting : Option Counter
  total : Option Counter
  errs : Option Counter

/-- checkStruct of the second revision: reports the first nil field, in
source order (client, sem, current, waiting, errs, total). -/
def RequestHandler.checkStruct (rh : RequestHandler) : Option String :=
  if rh.client.isNone then
    some "nil http client, use the function NewRequestHandler to build the RequestHandler struct"
  else if rh.sem.isNone then
    some "nil semaphore, use the function NewRequestHandler to build the RequestHandler struct"
  else if rh.current.isNone then
    some "nil current counter, use the function NewRequestHandler to build the RequestHandler struct"
  else if rh.waiting.isNone then
    some "nil waiting counter, use the function NewRequestHandler to build the RequestHandler struct"
  else if rh.errs.isNone then
    some "nil error counter, use the function NewRequestHandler to build the RequestHandler struct"
  else if rh.total.isNone then
    some "nil total counter, use the function NewRequestHandler to build the RequestHandler struct"
  else
    none

/-- NewRequestHandler of the second revision: clamps the total weight
into the range 1 to MaxInt32, replaces a timeout under one second or
over one hour with one minute, substitutes the default client for nil,
and builds the four counters (waiting and current saturating, total and
errors rollover, all with the MaxInt64 default maximum). -/
def newRequestHandler (tweight : Int) (timeout : Int) (cli : Option HttpClient) :
    RequestHandler :=
  let tweight := if tweight < 1 then 1 else if tweight > maxInt32 then maxInt32 else tweight
  let timeout := if timeout < nsSecond then nsMinute else if timeout > nsHour then nsMinute else timeout
  { client := some (cli.getD defaultClient)
    sem := some { size := tweight, cur := 0 }
    timeout := timeout
    current := some (newCounter "Running" 0 false)
    waiting := some (newCounter "Waiting" 0 false)
    total := some (newCounter "Total" 0 true)
    errs := some (newCounter "Errors" 0 true) }

/-- Result of one call in the single-call model.  blocked means the call
never returns (the handler component of the pair then holds the state
observable while the call waits); panicked means a Go runtime panic, in
this code always a method call through a nil error interface. -/
inductive DoResult where
  | resp (r : HttpResponse)
  | fail (e : GoErr)
  | panicked
  | blocked
deriving DecidableEq

/-- DoWeightedContext of the second revision, one call as a state
transformer.  Control flow mirrors the source line by line: nil request
check, weight normalization, nil context replacement by Background,
checkStruct, waiting.Add, sem.Acquire, on acquisition failure the inner
condition of the source tests err (the acquire error, non-nil on that
path) instead of errr, so the combined return always runs and calls
Error() on errr, a nil interface when the Remove succeeded, which is a
runtime panic; on acquisition success the release is deferred, then
waiting.Remove, current.Add, client.Do, current.Remove (a failure of
which increments errs and again calls Error() on the possibly nil
client error), then the error return or total.Add and the response. -/
def RequestHandler.DoWeightedContext (rh : RequestHandler) (req : Option HttpRequest)
    (weight : Int) (ctx : Option CtxBehavior) : DoResult × RequestHandler :=
  match req with
  | none => (.fail (.errNew "Request is nil"), rh)
  | some r =>
    let weight := if weight < 1 then 1 else weight
    let ctx := ctx.getD CtxBehavior.neverFires
    match rh.checkStruct with
    | some e => (.fail (.errNew e), rh)
    | none =>
      match rh.client, rh.sem, rh.current, rh.waiting, rh.total, rh.errs with
      | some cli, some sem, some cur, some wai, some tot, some er =>
        match wai.add with
        | (wai1, some e) => (.fail (.errNew e), { rh with waiting := some wai1 })
        | (wai1, none) =>
          match sem.acquire ctx weight with
          | (.blockForever, sem1) =>
            (.blocked, { rh with waiting := some wai1, sem := some sem1 })
          | (.ctxDone m, sem1) =>
            match wai1.remove with
            | (wai2, some errr) =>
              (.fail (.errNew (errr ++ " & " ++ m)),
                { rh with waiting := some wai2, sem := some sem1 })
            | (wai2, none) =>
              (.panicked, { rh with waiting := some wai2, sem := some sem1 })
          | (.ok, sem1) =>
            let semFinal := sem1.release weight
            match wai1.remove with
            | (wai2, some e) =>
              (.fail (.errNew e),
                { rh with waiting := some wai2, sem := some semFinal })
            | (wai2, none) =>
              match cur.add with
              | (cur1, some e) =>
                (.fail (.errNew e),
                  { rh with waiting := some wai2, current := some cur1, sem := some semFinal })
              | (cur1, none) =>
                match cli r with
                | (resp, err) =>
                  match cur1.remove with
                  | (cur2, some errr) =>
                    match er.add with
                    | (er1, _) =>
                      match err with
                      | some em =>
                        (.fail (.errNew (errr ++ " & " ++ em)),
                          { rh with waiting := some wai2, current := some cur2,
                                    errs := some er1, sem := some semFinal })
                      | none =>
                        (.panicked,
                          { rh with waiting := some wai2, current := some cur2,
                                    errs := some er1, sem := some semFinal })
                  | (cur2, none) =>
                    match err with
                    | some em =>
                      (.fail (.clientErr em),
                        { rh with waiting := some wai2, current := some cur2,
                                  sem := some semFinal })
                    | none =>
                      match tot.add with
                      | (tot1, _) =>
                        (.resp resp,
                          { rh with waiting := some wai2, current := some cur2,
                                    total := some tot1, sem := some semFinal })
      | _, _, _, _, _, _ => (.panicked, rh)

/-- DoWeighted of the second revision: wraps the call in a context with
the default per item timeout.  In the single-call frame that context
fires with context.DeadlineExceeded whenever the acquisition has to
wait, since no capacity frees up. -/
def RequestHandler.DoWeighted (rh : RequestHandler) (req : Option HttpRequest)
    (weight : Int) : DoResult × RequestHandler :=
  rh.DoWeightedContext req weight (some (.fires "context deadline exceeded"))

/-- Do of the second revision: weight one, default timeout. -/
def RequestHandler.Do (rh : RequestHandler) (req : Option HttpRequest) :
    DoResult × RequestHandler :=
  rh.DoWeighted req 1

/-- GetWaitingWeight of the second revision: zero for a nil counter,
otherwise its count. -/
def RequestHandler.GetWaitingWeight (rh : RequestHandler) : Int :=
  match rh.waiting with
  | none => 0
  | some c => c.count

/-- GetCurrentWeight of the second revision. -/
def RequestHandler.GetCurrentWeight (rh : RequestHandler) : Int :=
  match rh.current with
  | none => 0
  | some c => c.count

/-- GetErrorCount of the second revision; the source comment says it
returns the number of http request errors. -/
def RequestHandler.GetErrorCount (rh : RequestHandler) : Int :=
  match rh.errs with
  | none => 0
  | some c => c.count

/-- GetTotalCount of the second revision; the source comment says it
returns the number of successful requests. -/
def RequestHandler.GetTotalCount (rh : RequestHandler) : Int :=
  match rh.total with
  | none => 0
  | some c => c.count

/-- The RequestHandler of the third revision: waiting and current are
plain ints guarded by rwmutexes (locks dropped in the single-call
model). -/
structure RequestHandlerRev3 where
  client : Option HttpClient
  sem : Option Semaphore
  timeout : Int
  current : Int
  waiting : Int

/-- checkStruct of the third revision: only client and sem are checked. -/
def RequestHandlerRev3.checkStruct (rh : RequestHandlerRev3) : Option String :=
  if rh.client.isNone then
    some "nil http client, use the function NewRequestHandler to build the RequestHandler struct"
  else if rh.sem.isNone then
    some "nil semaphore, use the function NewRequestHandler to build the RequestHandler struct"
  else
    none

/-- DoWeightedContext of the third revision: nil request check, an
overweight fail-fast only for weight above MaxInt32, checkStruct, the
waiting saturation guard against MaxInt32, waiting increased by the full
weight, acquisition (the third revision neither normalizes a weight
under one nor replaces a nil context, so the context argument is taken
directly), on failure waiting is decreased and the raw acquire error
returned; on success waiting decreases, current increases by the weight,
the client runs, and the deferred decrement of current and release of
the semaphore run before the return. -/
def RequestHandlerRev3.DoWeightedContext (rh : RequestHandlerRev3)
    (req : Option HttpRequest) (weight : Int) (ctx : CtxBehavior) :
    DoResult × RequestHandlerRev3 :=
  match req with
  | none => (.fail (.errNew "Request is nil"), rh)
  | some r =>
    if weight > maxInt32 then
      (.fail (.errNew "Too heavy, drop some weight"), rh)
    else
      match rh.checkStruct with
      | some e => (.fail (.errNew e), rh)
      | none =>
        match rh.client, rh.sem with
        | some cli, some sem =>
          if rh.waiting ≥ maxInt32 - weight then
            (.fail (.errNew "Too much waiting! Slow your roll!"), rh)
          else
            let rh1 := { rh with waiting := rh.waiting + weight }
            match sem.acquire ctx weight with
            | (.blockForever, sem1) =>
              (.blocked, { rh1 with sem := some sem1 })
            | (.ctxDone m, sem1) =>
              (.fail (.ctxDone m),
                { rh1 with waiting := rh1.waiting - weight, sem := some sem1 })
            | (.ok, sem1) =>
              let rh2 := { rh1 with waiting := rh1.waiting - weight,
                                    current := rh1.current + weight }
              match cli r with
              | (resp, err) =>
                let rh3 := { rh2 with current := rh2.current - weight,
                                      sem := some (sem1.release weight) }
                match err with
                | some em => (.fail (.clientErr em), rh3)
                | none => (.resp resp, rh3)
        | _, _ => (.panicked, rh)

/-- An operation on a counter, for quantifying over operation
sequences. -/
inductive CounterOp where
  | add
  | remove
deriving DecidableEq

/-- Apply one operation to a counter, discarding the error like a caller
that ignores the return value. -/
def applyOp (c : Counter) (op : CounterOp) : Counter :=
  match op with
  | .add => c.add.1
  | .remove => c.remove.1

/-- Run a sequence of counter operations. -/
def runOps (c : Counter) (ops : List CounterOp) : Counter :=
  ops.foldl applyOp c

/-- Iterated counter increment, discarding the error. -/
def Counter.addStep (c : Counter) : Counter := c.add.1

/-- Modelled from the spec words of section 4 on the constructor: a
capacity under 1 clamps to 1, a capacity over the supported maximum
clamps to the maximum. -/
def specClampedWeight (t : Int) : Int :=
  if t < 1 then 1 else if t > maxInt32 then maxInt32 else t

/-- Modelled from the spec words of section 4 on the constructor: a
timeout under one second or over one hour is replaced by the one minute
default. -/
def specClampedTimeout (d : Int) : Int :=
  if d < nsSecond then nsMinute else if d > nsHour then nsMinute else d

/-- A client that always succeeds with response 7. -/
def okClient : HttpClient := fun _ => (7, none)

/-- A client that always fails with the message boom. -/
def boomClient : HttpClient := fun _ => (0, some "boom")

/-- A concrete handler of the second revision with the counters as the
constructor builds them and a semaphore of the given size and held
weight. -/
def rhExample (sz cur : Int) (cli : HttpClient) : RequestHandler :=
  { client := some cli
    sem := some { size := sz, cur := cur }
    timeout := nsMinute
    current := some (newCounter "Running" 0 false)
    waiting := some (newCounter "Waiting" 0 false)
    total := some (newCounter "Total" 0 true)
    errs := some (newCounter "Errors" 0 true) }

/-- A concrete handler of the third revision. -/
def rh3Example (sz cur : Int) (cli : HttpClient) : RequestHandlerRev3 :=
  { client := some cli
    sem := some { size := sz, cur := cur }
    timeout := nsMinute
    current := 0
    waiting := 0 }

/-! Helper lemmas about the counter and semaphore operations. -/

theorem Counter.add_of_ne_max {c : Counter} (h : c.count ≠ c.max) :
    c.add = ({ c with count := c.count + 1 }, none) := by
  simp [Counter.add, h]

theorem Counter.add_of_max_rollover {c : Counter} (h1 : c.count = c.max)
    (h2 : c.rollover = true) :
    c.add = ({ c with count := 1 }, none) := by
  simp [Counter.add, h1, h2]

theorem Counter.add_of_max_saturate {c : Counter} (h1 : c.count = c.max)
    (h2 : c.rollover = false) :
    c.add = (c, some (c.name ++ " count too high.  Slow your roll!")) := by
  simp [Counter.add, h1, h2]

theorem Counter.remove_of_ne_zero {c : Counter} (h : c.count ≠ 0) :
    c.remove = ({ c with count := c.count - 1 }, none) := by
  simp [Counter.remove, h]

theorem Counter.add_none_succ {c c1 : Counter} (h0 : c.rollover = false)
    (h : c.add = (c1, none)) :
    c1 = { c with count := c.count + 1 } ∧ c.count ≠ c.max := by
  by_cases hm : c.count = c.max
  · rw [Counter.add_of_max_saturate hm h0] at h
    simp at h
  · rw [Counter.add_of_ne_max hm] at h
    simp at h
    exact ⟨h.symm, hm⟩

theorem Counter.remove_none_pred {c c1 : Counter} (h0 : c.rollover = false)
    (h : c.remove = (c1, none)) :
    c1 = { c with count := c.count - 1 } ∧ c.count ≠ 0 := by
  by_cases hz : c.count = 0
  · simp [Counter.remove, hz, h0] at h
  · rw [Counter.remove_of_ne_zero hz] at h
    simp at h
    exact ⟨h.symm, hz⟩

theorem Counter.add_none_pos {c c1 : Counter} (h0 : 0 ≤ c.count)
    (h : c.add = (c1, none)) : 1 ≤ c1.count := by
  by_cases hm : c.count = c.max
  · rcases Bool.eq_false_or_eq_true c.rollover with hr | hr
    · rw [Counter.add_of_max_rollover hm hr] at h
      simp at h
      subst h
      simp
    · rw [Counter.add_of_max_saturate hm hr] at h
      simp at h
  · rw [Counter.add_of_ne_max hm] at h
    simp at h
    subst h
    simp
    omega

theorem Semaphore.acquire_of_fits {s : Semaphore} {n : Int} (ctx : CtxBehavior)
    (h : n ≤ s.size - s.cur) :
    s.acquire ctx n = (.ok, { s with cur := s.cur + n }) := by
  simp [Semaphore.acquire, h]

theorem Semaphore.acquire_fires_of_insufficient {s : Semaphore} {n : Int}
    (m : String) (h : s.size - s.cur < n) :
    s.acquire (.fires m) n = (.ctxDone m, s) := by
  have : ¬ n ≤ s.size - s.cur := by omega
  simp [Semaphore.acquire, this]

theorem Semaphore.acquire_never_of_insufficient {s : Semaphore} {n : Int}
    (h : s.size - s.cur < n) :
    s.acquire .neverFires n = (.blockForever, s) := by
  have : ¬ n ≤ s.size - s.cur := by omega
  simp [Semaphore.acquire, this]

theorem Semaphore.acquire_ok_inv {s s1 : Semaphore} {ctx : CtxBehavior} {n : Int}
    (h : s.acquire ctx n = (.ok, s1)) :
    s1 = { s with cur := s.cur + n } ∧ n ≤ s.size - s.cur := by
  by_cases hf : n ≤ s.size - s.cur
  · rw [Semaphore.acquire_of_fits ctx hf] at h
    simp at h
    exact ⟨h.symm, hf⟩
  · unfold Semaphore.acquire at h
    rw [if_neg hf] at h
    cases ctx <;> simp at h

theorem Semaphore.acquire_never_cases (s : Semaphore) (n : Int) :
    (s.acquire .neverFires n = (.ok, { s with cur := s.cur + n }) ∧ n ≤ s.size - s.cur)
    ∨ (s.acquire .neverFires n = (.blockForever, s) ∧ s.size - s.cur < n) := by
  by_cases hf : n ≤ s.size - s.cur
  · exact Or.inl ⟨Semaphore.acquire_of_fits _ hf, hf⟩
  · exact Or.inr ⟨Semaphore.acquire_never_of_insufficient (by omega), by omega⟩

theorem Counter.add_cases (c : Counter) :
    (c.add = ({ c with count := c.count + 1 }, none) ∧ c.count ≠ c.max)
    ∨ (c.add = ({ c with count := 1 }, none) ∧ c.count = c.max ∧ c.rollover = true)
    ∨ (c.add = (c, some (c.name ++ " count too high.  Slow your roll!"))
        ∧ c.count = c.max ∧ c.rollover = false) := by
  by_cases hm : c.count = c.max
  · rcases Bool.eq_false_or_eq_true c.rollover with hr | hr
    · exact Or.inr (Or.inl ⟨Counter.add_of_max_rollover hm hr, hm, hr⟩)
    · exact Or.inr (Or.inr ⟨Counter.add_of_max_saturate hm hr, hm, hr⟩)
  · exact Or.inl ⟨Counter.add_of_ne_max hm, hm⟩

theorem Counter.remove_cases (c : Counter) :
    (c.remove = ({ c with count := c.count - 1 }, none) ∧ c.count ≠ 0)
    ∨ (c.remove = (c, none) ∧ c.count = 0 ∧ c.rollover = true)
    ∨ (c.remove = (c, some "Too much removal") ∧ c.count = 0 ∧ c.rollover = false) := by
  by_cases hz : c.count = 0
  · rcases Bool.eq_false_or_eq_true c.rollover with hr | hr
    · exact Or.inr (Or.inl ⟨by simp [Counter.remove, hz, hr], hz, hr⟩)
    · exact Or.inr (Or.inr ⟨by simp [Counter.remove, hz, hr], hz, hr⟩)
  · exact Or.inl ⟨Counter.remove_of_ne_zero hz, hz⟩

/-- Iterating the increment below the maximum just adds to the count. -/
theorem Counter.addStep_iterate (k : Nat) (c : Counter)
    (h : c.count + k ≤ c.max) :
    Counter.addStep^[k] c = { c with count := c.count + k } := by
  induction k generalizing c with
  | zero => simp
  | succ n ih =>
    rw [Function.iterate_succ_apply]
    have hne : c.count ≠ c.max := by omega
    have hstep : c.addStep = { c with count := c.count + 1 } := by
      unfold Counter.addStep
      rw [Counter.add_of_ne_max hne]
    rw [hstep, ih ({ c with count := c.count + 1 }) (by simp; omega)]
    simp [Counter.mk.injEq]
    ring

/-- Every counter a RequestHandler owns is built by newCounter; this
extracts the fields all claims about constructed handlers rely on. -/
theorem newCounter_count (name : String) (max : Int) (rollover : Bool) :
    (newCounter name max rollover).count = 0 := rfl

/-- C6: NewRequestHandler clamps every total weight below 1 up to 1 and
every total weight above MaxInt32 down to MaxInt32, and replaces every
timeout below one second as well as every timeout above one hour with
the one minute default: for all integer weights and durations the built
semaphore capacity is the spec clamp of the weight and the stored
timeout is the spec clamp of the duration. -/
theorem c6_constructor_clamps (tweight timeout : Int) (cli : Option HttpClient) :
    (newRequestHandler tweight timeout cli).sem
      = some { size := specClampedWeight tweight, cur := 0 }
    ∧ (newRequestHandler tweight timeout cli).timeout = specClampedTimeout timeout :=
  ⟨rfl, rfl⟩

/-- C9: a nil request to any entry point (Do, DoWeighted,
DoWeightedContext) returns the Request is nil error and hands back the
handler untouched: no counter is mutated and no gate weight is
acquired. -/
theorem c9_nil_request (rh : RequestHandler) (weight : Int) (ctx : Option CtxBehavior) :
    rh.Do none = (.fail (.errNew "Request is nil"), rh)
    ∧ rh.DoWeighted none weight = (.fail (.errNew "Request is nil"), rh)
    ∧ rh.DoWeightedContext none weight ctx = (.fail (.errNew "Request is nil"), rh) :=
  ⟨rfl, rfl, rfl⟩

/-- C1 counterexample: on the third revision a call with weight 10
against a gate of total weight 5 (10 being well under MaxInt32) is not
rejected as overweight: it waits until the context fires and surfaces
the context deadline error instead of the Too heavy error. -/
theorem c1_counterexample :
    ((rh3Example 5 0 okClient).DoWeightedContext (some 0) 10
        (.fires "context deadline exceeded")).1
      = .fail (.ctxDone "context deadline exceeded")
    ∧ ((rh3Example 5 0 okClient).DoWeightedContext (some 0) 10
        (.fires "context deadline exceeded")).1
      ≠ .fail (.errNew "Too heavy, drop some weight") := by
  constructor <;> decide

/-- C4 counterexample: a call with weight 3 that reaches the waiting
stage on a full gate of the second revision increments the waiting
counter by 1, not by its weight: while the call is blocked the reported
waiting weight is 1, not 3. -/
theorem c4_counterexample :
    ((rhExample 1 1 okClient).DoWeightedContext (some 0) 3 (some .neverFires)).1
      = .blocked
    ∧ ((rhExample 1 1 okClient).DoWeightedContext (some 0) 3
        (some .neverFires)).2.GetWaitingWeight = 1
    ∧ ((rhExample 1 1 okClient).DoWeightedContext (some 0) 3
        (some .neverFires)).2.GetWaitingWeight ≠ 3 := by
  refine ⟨?_, ?_, ?_⟩ <;> decide

/-- C7: a rollover counter at its maximum accepts a further Add with no
error: the count resets to zero and is still incremented, ending at
exactly 1; and a rollover counter of maximum M driven through M
increments from zero plus one more ends with count exactly 1. -/
theorem c7_rollover_wraps_to_one (c : Counter) (M : Nat) (h1 : 1 ≤ M)
    (h2 : c.rollover = true) (h3 : c.count = c.max) :
    c.add = ({ c with count := 1 }, none)
    ∧ (Counter.addStep^[M + 1] (newCounter "Total" (M : Int) true)).count = 1 := by
  refine ⟨Counter.add_of_max_rollover h3 h2, ?_⟩
  have hM0 : ((M : Int)) ≠ 0 := by
    have : M ≠ 0 := by omega
    exact_mod_cast this
  have hmax : (newCounter "Total" (M : Int) true).max = (M : Int) := by
    simp [newCounter, hM0]
  have hcnt : (newCounter "Total" (M : Int) true).count = 0 := rfl
  have hiter := Counter.addStep_iterate M (newCounter "Total" (M : Int) true)
    (by rw [hcnt, hmax]; omega)
  rw [Function.iterate_succ_apply', hiter]
  have hfull : ({ newCounter "Total" (M : Int) true with
      count := (newCounter "Total" (M : Int) true).count + (M : Int) } : Counter).count
      = ({ newCounter "Total" (M : Int) true with
      count := (newCounter "Total" (M : Int) true).count + (M : Int) } : Counter).max := by
    simp [hcnt, hmax]
  have hro : ({ newCounter "Total" (M : Int) true with
      count := (newCounter "Total" (M : Int) true).count + (M : Int) } : Counter).rollover
      = true := rfl
  unfold Counter.addStep
  rw [Counter.add_of_max_rollover hfull hro]

/-- C7 witness at M equal 5. -/
theorem c7_witness :
    1 ≤ 5
    ∧ (⟨"Total", 7, 7, true⟩ : Counter).rollover = true
    ∧ (⟨"Total", 7, 7, true⟩ : Counter).count = (⟨"Total", 7, 7, true⟩ : Counter).max
    ∧ ((⟨"Total", 7, 7, true⟩ : Counter).add
        = ({ (⟨"Total", 7, 7, true⟩ : Counter) with count := 1 }, none)
      ∧ (Counter.addStep^[5 + 1] (newCounter "Total" ((5 : Nat) : Int) true)).count = 1) :=
  ⟨by decide, by decide, by decide,
    c7_rollover_wraps_to_one ⟨"Total", 7, 7, true⟩ 5 (by decide) (by decide) (by decide)⟩

/-- One counter operation keeps the count in range and the maximum
unchanged. -/
theorem applyOp_preserves {c : Counter} (h1 : 0 ≤ c.count) (h2 : c.count ≤ c.max)
    (h3 : 1 ≤ c.max) (op : CounterOp) :
    0 ≤ (applyOp c op).count ∧ (applyOp c op).count ≤ (applyOp c op).max
    ∧ (applyOp c op).max = c.max := by
  cases op with
  | add =>
    rcases Counter.add_cases c with ⟨he, hm⟩ | ⟨he, hm, hr⟩ | ⟨he, hm, hr⟩ <;>
      simp [applyOp, he] <;> omega
  | remove =>
    rcases Counter.remove_cases c with ⟨he, hz⟩ | ⟨he, hz, hr⟩ | ⟨he, hz, hr⟩ <;>
      simp [applyOp, he] <;> omega

/-- A sequence of counter operations keeps the count in range. -/
theorem runOps_invariant {c : Counter} (h1 : 0 ≤ c.count) (h2 : c.count ≤ c.max)
    (h3 : 1 ≤ c.max) (ops : List CounterOp) :
    0 ≤ (runOps c ops).count ∧ (runOps c ops).count ≤ (runOps c ops).max
    ∧ (runOps c ops).max = c.max := by
  induction ops generalizing c with
  | nil => exact ⟨h1, h2, rfl⟩
  | cons op rest ih =>
    have hstep := applyOp_preserves h1 h2 h3 op
    have hrec := ih (c := applyOp c op) hstep.1 hstep.2.1
      (by rw [hstep.2.2]; exact h3)
    have hrw : runOps c (op :: rest) = runOps (applyOp c op) rest := rfl
    rw [hrw]
    exact ⟨hrec.1, hrec.2.1, hrec.2.2.trans hstep.2.2⟩

/-- C8: for every counter built by newCounter with a nonnegative maximum
argument, and every sequence of Add and Remove operations from the
initial state, the count stays in the closed interval from 0 to the
counter maximum: Add either errors or wraps rather than exceed the
maximum, Remove either errors or no-ops rather than go below zero. -/
theorem c8_count_in_bounds (nm : String) (m : Int) (ro : Bool)
    (hm : 0 ≤ m) (ops : List CounterOp) :
    0 ≤ (runOps (newCounter nm m ro) ops).count
    ∧ (runOps (newCounter nm m ro) ops).count ≤ (newCounter nm m ro).max := by
  have h3 : 1 ≤ (newCounter nm m ro).max := by
    by_cases h : m = 0
    · simp [newCounter, h, maxInt64]
    · simp [newCounter, h]
      omega
  have h1 : 0 ≤ (newCounter nm m ro).count := le_refl 0
  have h2 : (newCounter nm m ro).count ≤ (newCounter nm m ro).max :=
    le_trans zero_le_one h3
  have hinv := runOps_invariant h1 h2 h3 ops
  exact ⟨hinv.1, by rw [← hinv.2.2]; exact hinv.2.1⟩

/-- C8 witness: a saturating counter of maximum 2 driven through a
mixed operation sequence. -/
theorem c8_witness :
    (0 : Int) ≤ 2
    ∧ (0 ≤ (runOps (newCounter "Waiting" 2 false)
          [.add, .add, .add, .remove, .remove, .remove, .add]).count
      ∧ (runOps (newCounter "Waiting" 2 false)
          [.add, .add, .add, .remove, .remove, .remove, .add]).count
        ≤ (newCounter "Waiting" 2 false).max) :=
  ⟨by decide, c8_count_in_bounds "Waiting" 2 false (by decide)
    [.add, .add, .add, .remove, .remove, .remove, .add]⟩

/-- A passing checkStruct of the third revision means the client is
present. -/
theorem RequestHandlerRev3.checkStruct_client {rh : RequestHandlerRev3}
    (h : rh.checkStruct = none) : ∃ cli, rh.client = some cli := by
  cases hc : rh.client with
  | none => simp [RequestHandlerRev3.checkStruct, hc] at h
  | some cli => exact ⟨cli, rfl⟩

/-- C1 amended: in the third revision only a weight exceeding MaxInt32
is rejected as overweight, and such a call fails fast with the Too
heavy error, deterministically and without blocking, mutating no
counter and acquiring no gate weight (the handler comes back
untouched); a weight that merely exceeds the gate total weight while
at most MaxInt32 is not rejected as overweight: the call waits, and
when the context fires it surfaces the context error instead. -/
theorem c1_overweight_fail_fast (rh : RequestHandlerRev3) (r : HttpRequest)
    (w : Int) (ctx : CtxBehavior) (sm : Semaphore) (s : String)
    (hsem : rh.sem = some sm) (hcs : rh.checkStruct = none) :
    (w > maxInt32 → rh.DoWeightedContext (some r) w ctx
      = (.fail (.errNew "Too heavy, drop some weight"), rh))
    ∧ (w ≤ maxInt32 → ctx = .fires s → sm.size - sm.cur < w →
      rh.waiting < maxInt32 - w →
      (rh.DoWeightedContext (some r) w ctx).1 = .fail (.ctxDone s)) := by
  constructor
  · intro h
    simp [RequestHandlerRev3.DoWeightedContext, h]
  · intro hw hctx hins hwait
    obtain ⟨cli, hcl⟩ := RequestHandlerRev3.checkStruct_client hcs
    subst hctx
    have hacq := Semaphore.acquire_fires_of_insufficient (s := sm) (n := w) s hins
    have hnh : ¬ w > maxInt32 := by omega
    have hnw : ¬ rh.waiting ≥ maxInt32 - w := by omega
    simp [RequestHandlerRev3.DoWeightedContext, hnh, hcs, hcl, hsem, hnw, hacq]

/-- C1 witness: the amended statement at a concrete handler with gate
capacity 5, weight 10 and a firing context. -/
theorem c1_witness :
    (rh3Example 5 0 okClient).sem = some { size := 5, cur := 0 }
    ∧ (rh3Example 5 0 okClient).checkStruct = none
    ∧ (((10 : Int) > maxInt32 →
        (rh3Example 5 0 okClient).DoWeightedContext (some 0) 10
          (.fires "context deadline exceeded")
          = (.fail (.errNew "Too heavy, drop some weight"), rh3Example 5 0 okClient))
      ∧ ((10 : Int) ≤ maxInt32 →
        (CtxBehavior.fires "context deadline exceeded")
          = .fires "context deadline exceeded" →
        (5 : Int) - 0 < 10 → (rh3Example 5 0 okClient).waiting < maxInt32 - 10 →
        ((rh3Example 5 0 okClient).DoWeightedContext (some 0) 10
          (.fires "context deadline exceeded")).1
          = .fail (.ctxDone "context deadline exceeded"))) :=
  ⟨rfl, rfl, c1_overweight_fail_fast (rh3Example 5 0 okClient) 0 10
    (.fires "context deadline exceeded") { size := 5, cur := 0 }
    "context deadline exceeded" rfl rfl⟩

/-- C4 amended: in the second revision the waiting counter is a unit
counter: a call that reaches the waiting stage increments it by exactly
1 whatever its weight (GetWaitingWeight reports the number of waiters,
not total waiting weight), and when that increment fails by saturation
the call fails with the waiting counter error and no gate weight is
acquired (handler unchanged). -/
theorem c4_waiting_unit_increment (rh : RequestHandler) (r : HttpRequest)
    (w : Int) (cli : HttpClient) (sm : Semaphore) (cu wa tt er : Counter)
    (hcl : rh.client = some cli) (hsm : rh.sem = some sm)
    (hcu : rh.current = some cu) (hwa : rh.waiting = some wa)
    (htt : rh.total = some tt) (her : rh.errs = some er) :
    (wa.count ≠ wa.max → sm.size - sm.cur < (if w < 1 then 1 else w) →
      (rh.DoWeightedContext (some r) w (some .neverFires)).1 = .blocked
      ∧ (rh.DoWeightedContext (some r) w (some .neverFires)).2.GetWaitingWeight
          = wa.count + 1)
    ∧ (wa.count = wa.max → wa.rollover = false →
      rh.DoWeightedContext (some r) w (some .neverFires)
        = (.fail (.errNew (wa.name ++ " count too high.  Slow your roll!")), rh)) := by
  constructor
  · intro hne hins
    have hadd := Counter.add_of_ne_max hne
    have hacq := Semaphore.acquire_never_of_insufficient (s := sm) hins
    constructor
    · simp [RequestHandler.DoWeightedContext, RequestHandler.checkStruct,
        hcl, hsm, hcu, hwa, htt, her, hadd, hacq]
    · simp [RequestHandler.DoWeightedContext, RequestHandler.checkStruct,
        RequestHandler.GetWaitingWeight, hcl, hsm, hcu, hwa, htt, her, hadd, hacq]
  · intro hm hro
    have hadd := Counter.add_of_max_saturate hm hro
    simp [RequestHandler.DoWeightedContext, RequestHandler.checkStruct,
      hcl, hsm, hcu, hwa, htt, her, hadd]
    rw [← hcl, ← hsm, ← hcu, ← htt, ← her, ← hwa]

/-- C4 witness: the amended statement at a concrete handler with a full
gate of capacity 1 and a weight 3 call. -/
theorem c4_witness :
    (rhExample 1 1 okClient).client = some okClient
    ∧ (rhExample 1 1 okClient).waiting = some (newCounter "Waiting" 0 false)
    ∧ ((((newCounter "Waiting" 0 false).count ≠ (newCounter "Waiting" 0 false).max →
        ({ size := 1, cur := 1 } : Semaphore).size
            - ({ size := 1, cur := 1 } : Semaphore).cur
          < (if (3 : Int) < 1 then 1 else 3) →
        ((rhExample 1 1 okClient).DoWeightedContext (some 0) 3 (some .neverFires)).1
          = .blocked
        ∧ ((rhExample 1 1 okClient).DoWeightedContext (some 0) 3
            (some .neverFires)).2.GetWaitingWeight
          = (newCounter "Waiting" 0 false).count + 1)
      ∧ ((newCounter "Waiting" 0 false).count = (newCounter "Waiting" 0 false).max →
        (newCounter "Waiting" 0 false).rollover = false →
        (rhExample 1 1 okClient).DoWeightedContext (some 0) 3 (some .neverFires)
          = (.fail (.errNew ((newCounter "Waiting" 0 false).name
              ++ " count too high.  Slow your roll!")), rhExample 1 1 okClient)))) :=
  ⟨rfl, rfl, c4_waiting_unit_increment (rhExample 1 1 okClient) 0 3 okClient
    { size := 1, cur := 1 } (newCounter "Running" 0 false)
    (newCounter "Waiting" 0 false) (newCounter "Total" 0 true)
    (newCounter "Errors" 0 true) rfl rfl rfl rfl rfl rfl⟩

/-- C2: in the second revision, when gate acquisition fails the inner
condition of the source tests err (the acquire error, non-nil on that
path) instead of errr (the result of the waiting decrement), so the
combined error return always runs; on the ordinary path where the
waiting decrement succeeds, errr is a nil interface and calling
Error() on it is a runtime panic, so the call crashes instead of
returning the acquisition error. -/
theorem c2_acquire_failure_panics (rh : RequestHandler) (r : HttpRequest)
    (w : Int) (s : String) (cli : HttpClient) (sm : Semaphore)
    (cu wa tt er : Counter)
    (hcl : rh.client = some cli) (hsm : rh.sem = some sm)
    (hcu : rh.current = some cu) (hwa : rh.waiting = some wa)
    (htt : rh.total = some tt) (her : rh.errs = some er)
    (hne : wa.count ≠ wa.max) (hpos : 0 ≤ wa.count)
    (hins : sm.size - sm.cur < (if w < 1 then 1 else w)) :
    (rh.DoWeightedContext (some r) w (some (.fires s))).1 = .panicked := by
  have hadd := Counter.add_of_ne_max hne
  have hacq := Semaphore.acquire_fires_of_insufficient (s := sm) s hins
  have hrem := Counter.remove_of_ne_zero
    (c := { wa with count := wa.count + 1 }) (by simp; omega)
  simp [RequestHandler.DoWeightedContext, RequestHandler.checkStruct,
    hcl, hsm, hcu, hwa, htt, her, hadd, hacq, hrem]

/-- C2 witness: a concrete call on a handler with a full gate and an
already cancelled context panics. -/
theorem c2_witness :
    (rhExample 1 1 okClient).client = some okClient
    ∧ (newCounter "Waiting" 0 false).count ≠ (newCounter "Waiting" 0 false).max
    ∧ (0 : Int) ≤ (newCounter "Waiting" 0 false).count
    ∧ ({ size := 1, cur := 1 } : Semaphore).size
        - ({ size := 1, cur := 1 } : Semaphore).cur < (if (1 : Int) < 1 then 1 else 1)
    ∧ ((rhExample 1 1 okClient).DoWeightedContext (some 0) 1
        (some (.fires "context canceled"))).1 = .panicked :=
  ⟨rfl, by decide, by decide, by decide,
    c2_acquire_failure_panics (rhExample 1 1 okClient) 0 1 "context canceled"
      okClient { size := 1, cur := 1 } (newCounter "Running" 0 false)
      (newCounter "Waiting" 0 false) (newCounter "Total" 0 true)
      (newCounter "Errors" 0 true) rfl rfl rfl rfl rfl rfl
      (by decide) (by decide) (by decide)⟩

/-- C3: in the second revision an admitted call whose client.Do fails
returns the client error, but the error counter is not incremented (it
only moves when the in-flight decrement itself fails), contradicting
the GetErrorCount source comment; the total counter is also untouched
on this path. -/
theorem c3_exec_error_not_counted (rh : RequestHandler) (r : HttpRequest)
    (w : Int) (ctx : Option CtxBehavior) (resp : HttpResponse) (em : String)
    (cli : HttpClient) (sm : Semaphore) (cu wa tt er : Counter)
    (hcl : rh.client = some cli) (hsm : rh.sem = some sm)
    (hcu : rh.current = some cu) (hwa : rh.waiting = some wa)
    (htt : rh.total = some tt) (her : rh.errs = some er)
    (hfit : (if w < 1 then 1 else w) ≤ sm.size - sm.cur)
    (hwne : wa.count ≠ wa.max) (hwpos : 0 ≤ wa.count)
    (hcne : cu.count ≠ cu.max) (hcpos : 0 ≤ cu.count)
    (hcli : cli r = (resp, some em)) :
    (rh.DoWeightedContext (some r) w ctx).1 = .fail (.clientErr em)
    ∧ (rh.DoWeightedContext (some r) w ctx).2.GetErrorCount = rh.GetErrorCount
    ∧ (rh.DoWeightedContext (some r) w ctx).2.GetTotalCount = rh.GetTotalCount := by
  have haddw := Counter.add_of_ne_max hwne
  have hacq := Semaphore.acquire_of_fits (s := sm) (ctx.getD .neverFires) hfit
  have hremw := Counter.remove_of_ne_zero
    (c := { wa with count := wa.count + 1 }) (by simp; omega)
  have haddc := Counter.add_of_ne_max hcne
  have hremc := Counter.remove_of_ne_zero
    (c := { cu with count := cu.count + 1 }) (by simp; omega)
  refine ⟨?_, ?_, ?_⟩ <;>
    simp [RequestHandler.DoWeightedContext, RequestHandler.checkStruct,
      RequestHandler.GetErrorCount, RequestHandler.GetTotalCount,
      hcl, hsm, hcu, hwa, htt, her, haddw, hacq, hremw, haddc, hcli, hremc]

/-- C3 witness: a concrete admitted call with a failing client leaves
the error and total counters untouched while returning the client
error. -/
theorem c3_witness :
    (rhExample 1 0 boomClient).client = some boomClient
    ∧ (if (1 : Int) < 1 then 1 else 1)
        ≤ ({ size := 1, cur := 0 } : Semaphore).size
          - ({ size := 1, cur := 0 } : Semaphore).cur
    ∧ boomClient 0 = (0, some "boom")
    ∧ (((rhExample 1 0 boomClient).DoWeightedContext (some 0) 1
          (some (.fires "context deadline exceeded"))).1 = .fail (.clientErr "boom")
      ∧ ((rhExample 1 0 boomClient).DoWeightedContext (some 0) 1
          (some (.fires "context deadline exceeded"))).2.GetErrorCount
        = (rhExample 1 0 boomClient).GetErrorCount
      ∧ ((rhExample 1 0 boomClient).DoWeightedContext (some 0) 1
          (some (.fires "context deadline exceeded"))).2.GetTotalCount
        = (rhExample 1 0 boomClient).GetTotalCount) :=
  ⟨rfl, by decide, rfl,
    c3_exec_error_not_counted (rhExample 1 0 boomClient) 0 1
      (some (.fires "context deadline exceeded")) 0 "boom" boomClient
      { size := 1, cur := 0 } (newCounter "Running" 0 false)
      (newCounter "Waiting" 0 false) (newCounter "Total" 0 true)
      (newCounter "Errors" 0 true) rfl rfl rfl rfl rfl rfl
      (by decide) (by decide) (by decide) (by decide) (by decide) rfl⟩

/-- C10: a nil context passed to DoWeightedContext of the second
revision is replaced by a background context, so (on a properly
constructed handler with sane counters and a non-nil request) the call
behaves exactly as with an explicit never-firing context: it does not
crash, it never surfaces a context error, and when the gate lacks
capacity it waits unboundedly (blocks) rather than failing. -/
theorem c10_nil_context_background (rh : RequestHandler) (r : HttpRequest)
    (w : Int) (s : String) (cli : HttpClient) (sm : Semaphore)
    (cu wa tt er : Counter)
    (hcl : rh.client = some cli) (hsm : rh.sem = some sm)
    (hcu : rh.current = some cu) (hwa : rh.waiting = some wa)
    (htt : rh.total = some tt) (her : rh.errs = some er)
    (hwne : wa.count ≠ wa.max) (hwpos : 0 ≤ wa.count) (hcpos : 0 ≤ cu.count) :
    rh.DoWeightedContext (some r) w none
      = rh.DoWeightedContext (some r) w (some .neverFires)
    ∧ (rh.DoWeightedContext (some r) w none).1 ≠ .panicked
    ∧ (rh.DoWeightedContext (some r) w none).1 ≠ .fail (.ctxDone s)
    ∧ (sm.size - sm.cur < (if w < 1 then 1 else w) →
        (rh.DoWeightedContext (some r) w none).1 = .blocked) := by
  have heq : rh.DoWeightedContext (some r) w none
      = rh.DoWeightedContext (some r) w (some .neverFires) := rfl
  refine ⟨heq, ?_⟩
  rw [heq]
  have hadd := Counter.add_of_ne_max hwne
  rcases Semaphore.acquire_never_cases sm (if w < 1 then 1 else w) with
    ⟨hacq, hfit⟩ | ⟨hacq, hins⟩
  · have hremw := Counter.remove_of_ne_zero
      (c := { wa with count := wa.count + 1 }) (by simp; omega)
    have habs : ¬ sm.size - sm.cur < (if w < 1 then 1 else w) := not_lt.mpr hfit
    rcases Counter.add_cases cu with ⟨haddc, _⟩ | ⟨haddc, hmc, hrc⟩ | ⟨haddc, hmc, hrc⟩
    · rcases hcr : cli r with ⟨resp0, err0⟩
      have hremc := Counter.remove_of_ne_zero
        (c := { cu with count := cu.count + 1 }) (by simp; omega)
      cases err0 with
      | some em =>
        refine ⟨?_, ?_, fun hins1 => absurd hins1 habs⟩ <;>
          simp [RequestHandler.DoWeightedContext, RequestHandler.checkStruct,
            hcl, hsm, hcu, hwa, htt, her, hadd, hacq, hremw, haddc, hcr, hremc]
      | none =>
        refine ⟨?_, ?_, fun hins1 => absurd hins1 habs⟩ <;>
          simp [RequestHandler.DoWeightedContext, RequestHandler.checkStruct,
            hcl, hsm, hcu, hwa, htt, her, hadd, hacq, hremw, haddc, hcr, hremc]
    · rcases hcr : cli r with ⟨resp0, err0⟩
      have hremc := Counter.remove_of_ne_zero
        (c := { cu with count := 1 }) (by simp)
      cases err0 with
      | some em =>
        refine ⟨?_, ?_, fun hins1 => absurd hins1 habs⟩ <;>
          simp [RequestHandler.DoWeightedContext, RequestHandler.checkStruct,
            hcl, hsm, hcu, hwa, htt, her, hadd, hacq, hremw, haddc, hcr, hremc]
      | none =>
        refine ⟨?_, ?_, fun hins1 => absurd hins1 habs⟩ <;>
          simp [RequestHandler.DoWeightedContext, RequestHandler.checkStruct,
            hcl, hsm, hcu, hwa, htt, her, hadd, hacq, hremw, haddc, hcr, hremc]
    · refine ⟨?_, ?_, fun hins1 => absurd hins1 habs⟩ <;>
        simp [RequestHandler.DoWeightedContext, RequestHandler.checkStruct,
          hcl, hsm, hcu, hwa, htt, her, hadd, hacq, hremw, haddc]
  · refine ⟨?_, ?_, fun _ => ?_⟩ <;>
      simp [RequestHandler.DoWeightedContext, RequestHandler.checkStruct,
        hcl, hsm, hcu, hwa, htt, her, hadd, hacq]

/-- C10 witness: a nil context call on a concrete handler whose gate is
full blocks rather than failing or panicking. -/
theorem c10_witness :
    (rhExample 1 1 okClient).client = some okClient
    ∧ (newCounter "Waiting" 0 false).count ≠ (newCounter "Waiting" 0 false).max
    ∧ (0 : Int) ≤ (newCounter "Waiting" 0 false).count
    ∧ (0 : Int) ≤ (newCounter "Running" 0 false).count
    ∧ ((rhExample 1 1 okClient).DoWeightedContext (some 0) 1 none
        = (rhExample 1 1 okClient).DoWeightedContext (some 0) 1 (some .neverFires)
      ∧ ((rhExample 1 1 okClient).DoWeightedContext (some 0) 1 none).1 ≠ .panicked
      ∧ ((rhExample 1 1 okClient).DoWeightedContext (some 0) 1 none).1
          ≠ .fail (.ctxDone "context deadline exceeded")
      ∧ (({ size := 1, cur := 1 } : Semaphore).size
            - ({ size := 1, cur := 1 } : Semaphore).cur < (if (1 : Int) < 1 then 1 else 1) →
          ((rhExample 1 1 okClient).DoWeightedContext (some 0) 1 none).1 = .blocked)) :=
  ⟨rfl, by decide, by decide, by decide,
    c10_nil_context_background (rhExample 1 1 okClient) 0 1
      "context deadline exceeded" okClient { size := 1, cur := 1 }
      (newCounter "Running" 0 false) (newCounter "Waiting" 0 false)
      (newCounter "Total" 0 true) (newCounter "Errors" 0 true)
      rfl rfl rfl rfl rfl rfl (by decide) (by decide) (by decide)⟩

/-- C5: every call to DoWeightedContext of the second revision that
returns successfully leaves the waiting counter, the current counter
and the semaphore exactly at their pre-call values: the net change to
waiting plus in-flight weight attributable to a successful call is
zero, only the cumulative total and error counters may move. -/
theorem c5_success_restores (rh : RequestHandler) (req : Option HttpRequest)
    (w : Int) (ctx : Option CtxBehavior) (res : HttpResponse)
    (wa cu : Counter)
    (hwa : rh.waiting = some wa) (hcu : rh.current = some cu)
    (hwr : wa.rollover = false) (hcr : cu.rollover = false)
    (h : (rh.DoWeightedContext req w ctx).1 = .resp res) :
    (rh.DoWeightedContext req w ctx).2.GetWaitingWeight = rh.GetWaitingWeight
    ∧ (rh.DoWeightedContext req w ctx).2.GetCurrentWeight = rh.GetCurrentWeight
    ∧ (rh.DoWeightedContext req w ctx).2.sem = rh.sem := by
  cases req with
  | none => simp [RequestHandler.DoWeightedContext] at h
  | some r =>
  cases hcl2 : rh.client with
  | none =>
    simp [RequestHandler.DoWeightedContext, RequestHandler.checkStruct, hcl2] at h
  | some cli =>
  cases hsm2 : rh.sem with
  | none =>
    simp [RequestHandler.DoWeightedContext, RequestHandler.checkStruct,
      hcl2, hsm2] at h
  | some sm =>
  cases her2 : rh.errs with
  | none =>
    simp [RequestHandler.DoWeightedContext, RequestHandler.checkStruct,
      hcl2, hsm2, hcu, hwa, her2] at h
  | some er =>
  cases htt2 : rh.total with
  | none =>
    simp [RequestHandler.DoWeightedContext, RequestHandler.checkStruct,
      hcl2, hsm2, hcu, hwa, her2, htt2] at h
  | some tt =>
  rcases Counter.add_cases wa with ⟨hadd, hwne⟩ | ⟨hadd, hwm, hwro⟩ | ⟨hadd, hwm, hwro⟩
  · by_cases hfit : (if w < 1 then 1 else w) ≤ sm.size - sm.cur
    · have hacq := Semaphore.acquire_of_fits (s := sm)
        (ctx.getD CtxBehavior.neverFires) hfit
      rcases Counter.remove_cases ({ wa with count := wa.count + 1 }) with
        ⟨hremw, hwnz⟩ | ⟨hremw, hwz, hwro1⟩ | ⟨hremw, hwz, hwro1⟩
      · rcases Counter.add_cases cu with ⟨haddc, hcne⟩ | ⟨haddc, hcm, hcro⟩ | ⟨haddc, hcm, hcro⟩
        · rcases hcall : cli r with ⟨resp0, err0⟩
          rcases Counter.remove_cases ({ cu with count := cu.count + 1 }) with
            ⟨hremc, hcnz⟩ | ⟨hremc, hcz, hcro1⟩ | ⟨hremc, hcz, hcro1⟩
          · cases err0 with
            | some em =>
              simp [RequestHandler.DoWeightedContext, RequestHandler.checkStruct,
                hcl2, hsm2, hcu, hwa, her2, htt2, hadd, hacq, hremw, haddc,
                hcall, hremc] at h
            | none =>
              rcases hta : tt.add with ⟨tot1, te⟩
              refine ⟨?_, ?_, ?_⟩ <;>
                simp [RequestHandler.DoWeightedContext, RequestHandler.checkStruct,
                  RequestHandler.GetWaitingWeight, RequestHandler.GetCurrentWeight,
                  hcl2, hsm2, hcu, hwa, her2, htt2, hadd, hacq, hremw, haddc,
                  hcall, hremc, hta, Semaphore.release]
          · simp at hcro1
            rw [hcr] at hcro1
            exact absurd hcro1 (by simp)
          · cases err0 with
            | some em =>
              rcases hea : er.add with ⟨er1, ee⟩
              simp [RequestHandler.DoWeightedContext, RequestHandler.checkStruct,
                hcl2, hsm2, hcu, hwa, her2, htt2, hadd, hacq, hremw, haddc,
                hcall, hremc, hea] at h
            | none =>
              rcases hea : er.add with ⟨er1, ee⟩
              simp [RequestHandler.DoWeightedContext, RequestHandler.checkStruct,
                hcl2, hsm2, hcu, hwa, her2, htt2, hadd, hacq, hremw, haddc,
                hcall, hremc, hea] at h
        · rw [hcr] at hcro
          exact absurd hcro (by simp)
        · simp [RequestHandler.DoWeightedContext, RequestHandler.checkStruct,
            hcl2, hsm2, hcu, hwa, her2, htt2, hadd, hacq, hremw, haddc] at h
      · simp at hwro1
        rw [hwr] at hwro1
        exact absurd hwro1 (by simp)
      · simp [RequestHandler.DoWeightedContext, RequestHandler.checkStruct,
          hcl2, hsm2, hcu, hwa, her2, htt2, hadd, hacq, hremw] at h
    · cases hctx : ctx.getD CtxBehavior.neverFires with
      | neverFires =>
        have hacq := Semaphore.acquire_never_of_insufficient
          (s := sm) (n := (if w < 1 then 1 else w)) (by omega)
        simp [RequestHandler.DoWeightedContext, RequestHandler.checkStruct,
          hcl2, hsm2, hcu, hwa, her2, htt2, hadd, hctx, hacq] at h
      | fires m =>
        have hacq := Semaphore.acquire_fires_of_insufficient
          (s := sm) (n := (if w < 1 then 1 else w)) m (by omega)
        rcases Counter.remove_cases ({ wa with count := wa.count + 1 }) with
          ⟨hremw, hwnz⟩ | ⟨hremw, hwz, hwro1⟩ | ⟨hremw, hwz, hwro1⟩ <;>
          simp [RequestHandler.DoWeightedContext, RequestHandler.checkStruct,
            hcl2, hsm2, hcu, hwa, her2, htt2, hadd, hctx, hacq, hremw] at h
  · rw [hwr] at hwro
    exact absurd hwro (by simp)
  · simp [RequestHandler.DoWeightedContext, RequestHandler.checkStruct,
      hcl2, hsm2, hcu, hwa, her2, htt2, hadd] at h

/-- C5 witness: a concrete successful call leaves waiting, current and
the semaphore as they were. -/
theorem c5_witness :
    (rhExample 1 0 okClient).waiting = some (newCounter "Waiting" 0 false)
    ∧ (rhExample 1 0 okClient).current = some (newCounter "Running" 0 false)
    ∧ (newCounter "Waiting" 0 false).rollover = false
    ∧ (newCounter "Running" 0 false).rollover = false
    ∧ ((rhExample 1 0 okClient).DoWeightedContext (some 0) 1
        (some (.fires "context deadline exceeded"))).1 = .resp 7
    ∧ (((rhExample 1 0 okClient).DoWeightedContext (some 0) 1
          (some (.fires "context deadline exceeded"))).2.GetWaitingWeight
        = (rhExample 1 0 okClient).GetWaitingWeight
      ∧ ((rhExample 1 0 okClient).DoWeightedContext (some 0) 1
          (some (.fires "context deadline exceeded"))).2.GetCurrentWeight
        = (rhExample 1 0 okClient).GetCurrentWeight
      ∧ ((rhExample 1 0 okClient).DoWeightedContext (some 0) 1
          (some (.fires "context deadline exceeded"))).2.sem
        = (rhExample 1 0 okClient).sem) :=
  ⟨rfl, rfl, rfl, rfl, by decide,
    c5_success_restores (rhExample 1 0 okClient) (some 0) 1
      (some (.fires "context deadline exceeded")) 7
      (newCounter "Waiting" 0 false) (newCounter "Running" 0 false)
      rfl rfl rfl rfl (by decide)⟩
